import Mathlib

/-!
A formal model of the core of the `openedx-ledger` repository: the data model
(`openedx_ledger/models.py`), the idempotency-key utilities
(`openedx_ledger/utils.py`) and the python API (`openedx_ledger/api.py`),
together with theorems checking the specification's claims about them.

Conventions of the embedding:

* Database rows are records; the database is an explicit `DB` state threaded
  through every operation.  Django's `get_or_create` becomes `List.find?`
  followed by an append; `with atomic(): ... except:` becomes an `Except`
  result whose error case returns no state (the rollback).
* `uuid4()` draws are modelled by a monotone counter `DB.nextUuid`; uuid
  values are natural numbers (rendered with `toString` where the python code
  interpolates them into strings).
* Python's `hashlib.md5(...).hexdigest()` is modelled by a full MD5
  implementation over the byte sequence of the hashed string, and python's
  `str(...)` rendering of the hashed dict is modelled by `pyReprDict`, which
  keeps the dict's insertion order exactly as CPython does.
* The snapshot of `openedx_ledger/models.py` predates several members that
  `api.py` and the repository's tests use (the `FAILED` transaction state,
  the `Adjustment` model and `Transaction.get_adjustment`, and the ledger
  lock methods).  Those members are modelled from the spec; each such
  definition carries a doc comment starting with `Modelled from the spec:`.
* Purely descriptive row fields that no balance computation, key
  derivation, lookup or uniqueness constraint reads (`lms_user_id`,
  `content_key`, `reference_id`, `reference_type`,
  `subsidy_access_policy_uuid`, timestamps) are not inspected by any
  property below and are left out of the records.
-/

/-! ## MD5 (model of python's `hashlib.md5(...).hexdigest()`) -/

def rotl32 (x s : Nat) : Nat :=
  ((x <<< s) ||| (x >>> (32 - s))) &&& 4294967295

def md5K : List Nat :=
  [3614090360, 3905402710, 606105819, 3250441966, 4118548399, 1200080426, 2821735955, 4249261313,
   1770035416, 2336552879, 4294925233, 2304563134, 1804603682, 4254626195, 2792965006, 1236535329,
   4129170786, 3225465664, 643717713, 3921069994, 3593408605, 38016083, 3634488961, 3889429448,
   568446438, 3275163606, 4107603335, 1163531501, 2850285829, 4243563512, 1735328473, 2368359562,
   4294588738, 2272392833, 1839030562, 4259657740, 2763975236, 1272893353, 4139469664, 3200236656,
   681279174, 3936430074, 3572445317, 76029189, 3654602809, 3873151461, 530742520, 3299628645,
   4096336452, 1126891415, 2878612391, 4237533241, 1700485571, 2399980690, 4293915773, 2240044497,
   1873313359, 4264355552, 2734768916, 1309151649, 4149444226, 3174756917, 718787259, 3951481745]

def md5S : List Nat :=
  [7, 12, 17, 22, 7, 12, 17, 22, 7, 12, 17, 22, 7, 12, 17, 22,
   5, 9, 14, 20, 5, 9, 14, 20, 5, 9, 14, 20, 5, 9, 14, 20,
   4, 11, 16, 23, 4, 11, 16, 23, 4, 11, 16, 23, 4, 11, 16, 23,
   6, 10, 15, 21, 6, 10, 15, 21, 6, 10, 15, 21, 6, 10, 15, 21]

def md5F (i b c d : Nat) : Nat :=
  if i < 16 then (b &&& c) ||| ((b ^^^ 4294967295) &&& d)
  else if i < 32 then (d &&& b) ||| ((d ^^^ 4294967295) &&& c)
  else if i < 48 then b ^^^ c ^^^ d
  else c ^^^ (b ||| (d ^^^ 4294967295))

def md5G (i : Nat) : Nat :=
  if i < 16 then i
  else if i < 32 then (5 * i + 1) % 16
  else if i < 48 then (3 * i + 5) % 16
  else (7 * i) % 16

def md5Step (m : List Nat) (st : Nat × Nat × Nat × Nat) (i : Nat) : Nat × Nat × Nat × Nat :=
  let a := st.1
  let b := st.2.1
  let c := st.2.2.1
  let d := st.2.2.2
  let f := (md5F i b c d + a + md5K.getD i 0 + m.getD (md5G i) 0) &&& 4294967295
  (d, (b + rotl32 f (md5S.getD i 0)) &&& 4294967295, b, c)

def md5Word (chunk : List Nat) (j : Nat) : Nat :=
  chunk.getD (4 * j) 0 + ((chunk.getD (4 * j + 1) 0) <<< 8) +
    ((chunk.getD (4 * j + 2) 0) <<< 16) + ((chunk.getD (4 * j + 3) 0) <<< 24)

def md5Compress (st0 : Nat × Nat × Nat × Nat) (chunk : List Nat) : Nat × Nat × Nat × Nat :=
  let m := (List.range 16).map (md5Word chunk)
  let r := (List.range 64).foldl (md5Step m) st0
  ((st0.1 + r.1) &&& 4294967295,
   (st0.2.1 + r.2.1) &&& 4294967295,
   (st0.2.2.1 + r.2.2.1) &&& 4294967295,
   (st0.2.2.2 + r.2.2.2) &&& 4294967295)

def le64 (n : Nat) : List Nat :=
  [n &&& 255, (n >>> 8) &&& 255, (n >>> 16) &&& 255, (n >>> 24) &&& 255,
   (n >>> 32) &&& 255, (n >>> 40) &&& 255, (n >>> 48) &&& 255, (n >>> 56) &&& 255]

def md5Pad (msg : List Nat) : List Nat :=
  let L := msg.length
  let k := (56 + 64 - ((L + 1) % 64)) % 64
  msg ++ [128] ++ List.replicate k 0 ++ le64 ((8 * L) % 18446744073709551616)

def chunks64 : Nat → List Nat → List (List Nat)
  | 0, _ => []
  | _ + 1, [] => []
  | fuel + 1, l => l.take 64 :: chunks64 fuel (l.drop 64)

def hexDigit (n : Nat) : Char :=
  if n < 10 then Char.ofNat (48 + n) else Char.ofNat (87 + n)

def byteHex (b : Nat) : List Char :=
  [hexDigit (b / 16 % 16), hexDigit (b % 16)]

def wordLEHex (w : Nat) : List Char :=
  byteHex (w &&& 255) ++ byteHex ((w >>> 8) &&& 255) ++
    byteHex ((w >>> 16) &&& 255) ++ byteHex ((w >>> 24) &&& 255)

def md5hexBytes (msg : List Nat) : String :=
  let padded := md5Pad msg
  let cs := chunks64 padded.length padded
  let r := cs.foldl md5Compress (1732584193, 4023233417, 2562383102, 271733878)
  String.mk (wordLEHex r.1 ++ wordLEHex r.2.1 ++ wordLEHex r.2.2.1 ++ wordLEHex r.2.2.2)

def strBytes (s : String) : List Nat := s.data.map Char.toNat

def md5hex (s : String) : String := md5hexBytes (strBytes s)

/-! ## Python values and `str(...)` rendering of dicts

The metadata kwargs of the python functions are modelled as association
lists that keep the keyword-argument order of the call site, exactly as
CPython dicts keep insertion order (PEP 468).
-/

inductive PyVal where
  | pyInt (n : Int)
  | pyStr (s : String)
  | pyUuid (s : String)
deriving DecidableEq

/-- Python `repr` of a value, as it appears inside `str(some_dict)`:
integers render bare, strings render single-quoted, `uuid.UUID` values
render as `UUID(...)` with the hex string single-quoted. -/
def pyReprVal : PyVal → String
  | .pyInt n => toString n
  | .pyStr s => "\x27" ++ s ++ "\x27"
  | .pyUuid s => "UUID(\x27" ++ s ++ "\x27)"

/-- Python `str(...)` of a dict: `\x7b'k1': v1, 'k2': v2\x7d` in insertion
order, which is what `utils.create_idempotency_key_for_transaction` feeds
into `hashlib.md5`. -/
def pyReprDict (kvs : List (String × PyVal)) : String :=
  "\x7b" ++
    String.intercalate (", ")
      (kvs.map (fun kv => "\x27" ++ kv.1 ++ "\x27: " ++ pyReprVal kv.2)) ++
    "\x7d"

/-! ## `openedx_ledger/utils.py` -/

/-- `utils.TRANSACTION_METADATA_KEYS` (a python set; only membership is used). -/
def TRANSACTION_METADATA_KEYS : List String :=
  ["lms_user_id", "content_key", "subsidy_access_policy_uuid"]

/-- `utils.create_idempotency_key_for_ledger`.  The string constants are the
values of `LEDGERED_SUBSIDY_IDEMPOTENCY_KEY_PREFIX` and
`LEDGER_DEFAULT_IDEMPOTENCY_KEY_PREFIX` from `openedx_ledger/constants.py`;
`freshUuid` is the value drawn by `uuid4()` in the default branch. -/
def create_idempotency_key_for_ledger (subsidy_uuid : Option String) (freshUuid : String) :
    String :=
  match subsidy_uuid with
  | some su => "ledger-for-subsidy-" ++ su
  | none => "ledger-default-" ++ freshUuid

/-! ## Data model (`openedx_ledger/models.py`) -/

/-- Modelled from the spec: `TransactionStateChoices`.  The snapshot of
`models.py` declares only `CREATED`, `PENDING` and `COMMITTED`; the terminal
`FAILED` state is missing from the snapshot although the repository's tests
use `TransactionStateChoices.FAILED` and the spec's state machine includes
it, so the `failed` member is modelled from the spec. -/
inductive TState where
  | created
  | pending
  | committed
  | failed
deriving DecidableEq

structure Ledger where
  uuid : Nat
  idempotency_key : String
  unit : String
  metadata : List (String × PyVal)
deriving DecidableEq

structure Tx where
  uuid : Nat
  ledger : Option Nat
  idempotency_key : String
  quantity : Int
  state : TState
  metadata : List (String × PyVal)
deriving DecidableEq

structure Rev where
  uuid : Nat
  transaction : Option Nat
  idempotency_key : String
  quantity : Int
  state : TState
  metadata : List (String × PyVal)
deriving DecidableEq

/-- Modelled from the spec: the `Adjustment` model (one row per manual
correction, one-to-one with its backing `Transaction`, optional reference to
a transaction of interest, a reason and free-text notes).  The `Adjustment`
model is absent from the snapshot of `models.py` although `api.py` and the
tests use it. -/
structure Adjustment where
  uuid : Nat
  ledger : Nat
  transaction : Nat
  transaction_of_interest : Option Nat
  adjustment_quantity : Int
  reason : String
  notes : Option String
deriving DecidableEq

/-- The persistent store: every table, plus a monotone counter supplying the
`uuid4()` draws. -/
structure DB where
  nextUuid : Nat
  ledgers : List Ledger
  transactions : List Tx
  reversals : List Rev
  adjustments : List Adjustment
deriving DecidableEq

def DB.empty : DB := ⟨0, [], [], [], []⟩

deriving instance DecidableEq for Except

/-- `utils.create_idempotency_key_for_transaction`.  The `initial-deposit`
slug is `INITIAL_DEPOSIT_TRANSACTION_SLUG` from `constants.py`.  The
metadata dict comprehension keeps the caller's keyword order; `freshUuid`
is the `uuid4()` drawn for the `default_identifier` fallback. -/
def create_idempotency_key_for_transaction (ledger : Ledger) (quantity : Int)
    (is_initial_deposit : Bool) (metadata : List (String × PyVal)) (freshUuid : String) :
    String :=
  if is_initial_deposit then
    ledger.idempotency_key ++ "-" ++ toString quantity ++ "-initial-deposit"
  else
    let idpk_data := metadata.filter (fun kv => TRANSACTION_METADATA_KEYS.contains kv.1)
    let idpk_data :=
      if idpk_data = [] then [("default_identifier", PyVal.pyUuid freshUuid)] else idpk_data
    ledger.idempotency_key ++ "-" ++ toString quantity ++ "-" ++ md5hex (pyReprDict idpk_data)

/-! ## Balance engine (`Ledger.subset_balance` / `Ledger.balance`) -/

/-- `select_related('reversal')`: the `Reversal` row whose one-to-one
`transaction` foreign key points at the given transaction uuid. -/
def revQ (reversals : List Rev) (txUuid : Nat) : Int :=
  match reversals.find? (fun r => decide (r.transaction = some txUuid)) with
  | some r => r.quantity
  | none => 0

/-- The per-row annotation of `subset_balance`:
`Coalesce(Sum('quantity'), 0) + Coalesce(Sum('reversal__quantity'), 0)`. -/
def rowTotal (reversals : List Rev) (t : Tx) : Int :=
  t.quantity + revQ reversals t.uuid

/-- Modelled from the spec: the exclusion of `FAILED` transactions from the
balance aggregation.  The snapshot of `models.py` has no `FAILED` state at
all; the spec states "FAILED is terminal and excluded from all balance
math" and the repository's test
`test_balance_excludes_failed_transactions` asserts it. -/
def excludeFailed (qs : List Tx) : List Tx :=
  qs.filter (fun t => decide (t.state ≠ TState.failed))

/-- `Ledger.subset_balance`: intersect the caller's queryset with the
ledger's own transactions, drop `FAILED` rows, and sum the per-row totals
(0 for an empty queryset, per the outer `Coalesce`). -/
def subset_balance (db : DB) (self : Ledger) (transactions_queryset : List Tx) : Int :=
  let qs := transactions_queryset.filter (fun t => decide (t.ledger = some self.uuid))
  ((excludeFailed qs).map (rowTotal db.reversals)).sum

/-- `Ledger.balance`: `subset_balance` over `Transaction.objects.filter(ledger=self)`. -/
def Ledger.balance (db : DB) (self : Ledger) : Int :=
  subset_balance db self (db.transactions.filter (fun t => decide (t.ledger = some self.uuid)))

/-- `Ledger.save`: assign a default idempotency key when the current one is
falsy (python `None` or the empty string, both modelled by `""`), then
persist.  Returns the saved row. -/
def Ledger.save (self : Ledger) (freshUuid : String) : Ledger :=
  if self.idempotency_key = "" then
    { self with idempotency_key := create_idempotency_key_for_ledger none freshUuid }
  else
    self

/-! ## Ledger lock manager -/

/-- Modelled from the spec: the per-ledger advisory lock state.  The lock
methods (`Ledger.acquire_lock`, `Ledger.release_lock`, `Ledger.lock`) are
absent from the snapshot of `models.py` although `api.py` and the tests use
them; the spec describes a ledger-scoped atomic check-and-set keyed by the
ledger's identity, holding an opaque token. -/
def LockState := List (Nat × Nat)

/-- Modelled from the spec: whether the ledger identified by `ledgerUuid`
currently has a holder. -/
def lockHeld (ls : LockState) (ledgerUuid : Nat) : Bool :=
  (ls.find? (fun p => decide (p.1 = ledgerUuid))).isSome

/-- Modelled from the spec: `acquire_lock(ledger) -> token | null` — a
non-blocking, ledger-scoped check-and-set; `freshToken` is the opaque token
stored on success.  Returns the token (or `none` when another actor holds
the lock) together with the new lock state. -/
def acquire_lock (ls : LockState) (ledgerUuid : Nat) (freshToken : Nat) :
    Option Nat × LockState :=
  if lockHeld ls ledgerUuid then (none, ls)
  else (some freshToken, (ledgerUuid, freshToken) :: ls)

/-- Modelled from the spec: `release_lock(ledger)` — unconditionally safe,
idempotent removal of the ledger's lock entry. -/
def release_lock (ls : LockState) (ledgerUuid : Nat) : LockState :=
  ls.filter (fun p => decide (p.1 ≠ ledgerUuid))

inductive LockError where
  | ledgerLockAttemptFailed
deriving DecidableEq

/-- Modelled from the spec: the scoped `lock()` acquisition — fails with
`LedgerLockAttemptFailed` when the lock cannot be obtained immediately,
otherwise yields the token and the state with the lock taken. -/
def ledgerLock (ls : LockState) (ledgerUuid : Nat) (freshToken : Nat) :
    Except LockError (Nat × LockState) :=
  match acquire_lock ls ledgerUuid freshToken with
  | (none, _) => .error .ledgerLockAttemptFailed
  | (some tok, ls1) => .ok (tok, ls1)

/-! ## The python API (`openedx_ledger/api.py`)

The api functions are modelled single-threaded: `with ledger.lock():` in
`create_transaction` serialises balance-checking writes between processes
and is the subject of its own claims; inside one call it only brackets the
body, so it does not appear in the state-passing functions below.
-/

inductive ApiError where
  | ledgerBalanceExceeded
  | nonCommittedTransaction
  | cannotReverseAdjustment
  | doesNotExist
  | integrityError
  | adjustmentCreationError (cause : ApiError)
deriving DecidableEq

/-- `api.create_transaction`: under the ledger lock and a durable atomic
write, compute the balance, fail with `LedgerBalanceExceeded` when a
negative quantity would drive it negative, otherwise get-or-create the
`Transaction` keyed by `(ledger, idempotency_key)` with the remaining
fields as creation defaults. -/
def create_transaction (db : DB) (ledger : Ledger) (quantity : Int)
    (idempotency_key : String) (state : TState) (metadata : List (String × PyVal)) :
    Except ApiError (DB × Tx) :=
  let balance := Ledger.balance db ledger
  if quantity < 0 ∧ balance + quantity < 0 then
    .error .ledgerBalanceExceeded
  else
    match db.transactions.find? (fun t =>
        decide (t.ledger = some ledger.uuid ∧ t.idempotency_key = idempotency_key)) with
    | some t => .ok (db, t)
    | none =>
      let t : Tx :=
        { uuid := db.nextUuid
          ledger := some ledger.uuid
          idempotency_key := idempotency_key
          quantity := quantity
          state := state
          metadata := metadata }
      .ok ({ db with
              nextUuid := db.nextUuid + 1
              transactions := db.transactions ++ [t] }, t)

/-- Modelled from the spec: `Transaction.get_adjustment` — the `Adjustment`
row whose one-to-one `transaction` foreign key is this transaction, if any.
Absent from the snapshot of `models.py`; used by
`api.reverse_full_transaction` to refuse reversing an adjustment's backing
transaction. -/
def get_adjustment (db : DB) (txUuid : Nat) : Option Adjustment :=
  db.adjustments.find? (fun a => decide (a.transaction = txUuid))

inductive LedgerEvent where
  | transactionReversed (r : Rev)
deriving DecidableEq

/-- Result of `api.reverse_full_transaction`: the new store, the returned
`Reversal`, and the `TRANSACTION_REVERSED` signals sent during the call. -/
structure RevRes where
  db : DB
  reversal : Rev
  events : List LedgerEvent
deriving DecidableEq

/-- `api.reverse_full_transaction`: refuse the backing transaction of an
`Adjustment`; inside a durable atomic write, re-read the transaction, fail
unless it is `COMMITTED`, get-or-create the `Reversal` keyed by
`(transaction, idempotency_key)` (with `state=COMMITTED` part of the lookup
as in the python call, and quantity `transaction.quantity * -1` as a
creation default; creating a second `Reversal` for the same transaction
violates the one-to-one constraint), then send `TRANSACTION_REVERSED`. -/
def reverse_full_transaction (db : DB) (txUuid : Nat) (idempotency_key : String)
    (metadata : List (String × PyVal)) : Except ApiError RevRes :=
  if (get_adjustment db txUuid).isSome then
    .error .cannotReverseAdjustment
  else
    match db.transactions.find? (fun t => decide (t.uuid = txUuid)) with
    | none => .error .doesNotExist
    | some transaction =>
      if transaction.state ≠ TState.committed then
        .error .nonCommittedTransaction
      else
        match db.reversals.find? (fun r =>
            decide (r.transaction = some transaction.uuid ∧
              r.idempotency_key = idempotency_key ∧ r.state = TState.committed)) with
        | some r => .ok ⟨db, r, [.transactionReversed r]⟩
        | none =>
          if db.reversals.any (fun r => decide (r.transaction = some transaction.uuid)) then
            .error .integrityError
          else
            let r : Rev :=
              { uuid := db.nextUuid
                transaction := some transaction.uuid
                idempotency_key := idempotency_key
                quantity := transaction.quantity * -1
                state := TState.committed
                metadata := metadata }
            .ok ⟨{ db with
                    nextUuid := db.nextUuid + 1
                    reversals := db.reversals ++ [r] }, r, [.transactionReversed r]⟩

/-- Python truthiness of an optional string argument (`None` and `""` are
falsy), used for `unit or ...` and `idempotency_key or ...`. -/
def pyOrStr (o : Option String) (dflt : String) : String :=
  match o with
  | some s => if s = "" then dflt else s
  | none => dflt

/-- The `Ledger.objects.get_or_create` step of `api.create_ledger`, keyed
by `(unit, idempotency_key)` with the metadata as a creation default. -/
def ledger_get_or_create (db0 : DB) (unitVal keyStr : String)
    (metadata : List (String × PyVal)) : DB × Ledger :=
  match db0.ledgers.find? (fun l =>
      decide (l.unit = unitVal ∧ l.idempotency_key = keyStr)) with
  | some l => (db0, l)
  | none =>
    let l : Ledger :=
      { uuid := db0.nextUuid, idempotency_key := keyStr, unit := unitVal, metadata := metadata }
    ({ db0 with nextUuid := db0.nextUuid + 1, ledgers := db0.ledgers ++ [l] }, l)

/-- The `if initial_deposit:` tail of `api.create_ledger`: when the deposit
is truthy, create one `COMMITTED` transaction under the deterministic
initial-deposit idempotency key. -/
def create_ledger_deposit (db1 : DB) (ledger : Ledger) (initial_deposit : Option Int) :
    DB × Except ApiError Ledger :=
  match initial_deposit with
  | none => (db1, .ok ledger)
  | some d =>
    if d = 0 then (db1, .ok ledger)
    else
      let initial_idpk := create_idempotency_key_for_transaction ledger d true [] ""
      match create_transaction db1 ledger d initial_idpk TState.committed [] with
      | .ok (db2, _) => (db2, .ok ledger)
      | .error e => (db1, .error e)

/-- `api.create_ledger`: get-or-create the `Ledger` keyed by
`(unit, idempotency_key)` (defaulting the unit to `usd_cents` and the key
to `create_idempotency_key_for_ledger(subsidy_uuid)`), then — when
`initial_deposit` is truthy — create one `COMMITTED` transaction for it
under the deterministic initial-deposit idempotency key.  The function body
is not wrapped in one atomic block, so the store after a failed deposit
still contains the ledger; the result therefore always carries the new
store, with `Except` only for the outcome. -/
def create_ledger (db : DB) (unit : Option String) (idempotency_key : Option String)
    (subsidy_uuid : Option String) (initial_deposit : Option Int)
    (metadata : List (String × PyVal)) : DB × Except ApiError Ledger :=
  let unitVal := pyOrStr unit "usd_cents"
  let keyed : String × DB :=
    match idempotency_key with
    | some s =>
      if s = "" then
        (create_idempotency_key_for_ledger subsidy_uuid (toString db.nextUuid),
         { db with nextUuid := db.nextUuid + 1 })
      else (s, db)
    | none =>
      (create_idempotency_key_for_ledger subsidy_uuid (toString db.nextUuid),
       { db with nextUuid := db.nextUuid + 1 })
  let got := ledger_get_or_create keyed.2 unitVal keyed.1 metadata
  create_ledger_deposit got.1 got.2 initial_deposit

/-- The `try: with atomic():` body of `api.create_adjustment`: create the
`COMMITTED` transaction, then the `Adjustment` row linking to it; any
failure is re-raised as `AdjustmentCreationError` wrapping the cause, with
the block rolled back (no store is returned on error). -/
def create_adjustment_atomic (db0 : DB) (ledger : Ledger) (quantity : Int)
    (tx_idempotency_key : String) (adjustment_uuid : Option Nat) (reason : String)
    (notes : Option String) (transaction_of_interest : Option Nat)
    (metadata : List (String × PyVal)) : Except ApiError (DB × Adjustment) :=
  match create_transaction db0 ledger quantity tx_idempotency_key TState.committed metadata with
  | .error e => .error (.adjustmentCreationError e)
  | .ok (db1, transaction) =>
    let chosen : Nat × DB :=
      match adjustment_uuid with
      | some u => (u, db1)
      | none => (db1.nextUuid, { db1 with nextUuid := db1.nextUuid + 1 })
    let auuid := chosen.1
    let db2 := chosen.2
    if db2.adjustments.any (fun a => decide (a.uuid = auuid)) ||
        db2.adjustments.any (fun a => decide (a.transaction = transaction.uuid)) then
      .error (.adjustmentCreationError .integrityError)
    else
      let adjustment : Adjustment :=
        { uuid := auuid
          ledger := ledger.uuid
          transaction := transaction.uuid
          transaction_of_interest := transaction_of_interest
          adjustment_quantity := quantity
          reason := reason
          notes := notes }
      .ok ({ db2 with adjustments := db2.adjustments ++ [adjustment] }, adjustment)

/-- `api.create_adjustment`: derive the transaction idempotency key (a
fresh `uuid4()` disambiguator when none is supplied), then run the atomic
two-step creation.  Reusing an adjustment uuid, or an adjustment already
existing for the (reused) transaction, violates a uniqueness constraint
inside the block. -/
def create_adjustment (db : DB) (ledger : Ledger) (quantity : Int)
    (adjustment_uuid : Option Nat) (reason : String) (notes : Option String)
    (idempotency_key : Option String) (transaction_of_interest : Option Nat)
    (metadata : List (String × PyVal)) : Except ApiError (DB × Adjustment) :=
  let keyed : String × DB :=
    match idempotency_key with
    | some k => (k, db)
    | none =>
      (toString ledger.uuid ++ "-adjustment-" ++ toString quantity ++ "-reason-" ++
        toString db.nextUuid,
       { db with nextUuid := db.nextUuid + 1 })
  create_adjustment_atomic keyed.2 ledger quantity keyed.1 adjustment_uuid reason notes
    transaction_of_interest metadata

/-! ## Sequences of core operations -/

/-- One call of the collaborator-facing mutating API surface. -/
inductive Op where
  | createTransaction (ledgerUuid : Nat) (quantity : Int) (idempotency_key : String)
      (state : TState) (metadata : List (String × PyVal))
  | reverseFullTransaction (txUuid : Nat) (idempotency_key : String)
      (metadata : List (String × PyVal))
  | createAdjustment (ledgerUuid : Nat) (quantity : Int) (adjustment_uuid : Option Nat)
      (reason : String) (notes : Option String) (idempotency_key : Option String)
      (transaction_of_interest : Option Nat) (metadata : List (String × PyVal))
  | createLedger (unit : Option String) (idempotency_key : Option String)
      (subsidy_uuid : Option String) (initial_deposit : Option Int)
      (metadata : List (String × PyVal))
deriving DecidableEq

def lookupLedger (db : DB) (ledgerUuid : Nat) : Option Ledger :=
  db.ledgers.find? (fun l => decide (l.uuid = ledgerUuid))

/-- Apply one API call to the store.  A raised error leaves the caller's
store as it was (each operation writes inside an atomic block, except
`create_ledger`, whose partial store is returned by the function itself). -/
def applyOp (db : DB) (op : Op) : DB :=
  match op with
  | .createTransaction lu q k s md =>
    match lookupLedger db lu with
    | none => db
    | some l =>
      match create_transaction db l q k s md with
      | .ok (db1, _) => db1
      | .error _ => db
  | .reverseFullTransaction u k md =>
    match reverse_full_transaction db u k md with
    | .ok res => res.db
    | .error _ => db
  | .createAdjustment lu q au reason notes k toi md =>
    match lookupLedger db lu with
    | none => db
    | some l =>
      match create_adjustment db l q au reason notes k toi md with
      | .ok (db1, _) => db1
      | .error _ => db
  | .createLedger u k su d md => (create_ledger db u k su d md).1

def run (db : DB) (ops : List Op) : DB :=
  ops.foldl applyOp db

/-! ## Store well-formedness

Invariants maintained by every operation: transaction primary keys are
distinct, and every primary key or foreign-key target already drawn is
below the uuid counter (so a fresh draw collides with nothing). -/

structure WF (db : DB) : Prop where
  txNodup : (db.transactions.map Tx.uuid).Nodup
  txFresh : ∀ t ∈ db.transactions, t.uuid < db.nextUuid
  revFresh : ∀ r ∈ db.reversals, ∀ u, r.transaction = some u → u < db.nextUuid

/-! ## The spec's balance formula (claim C1) -/

/-- The ledger's transactions (`related_name='transactions'`). -/
def ledgerTransactions (db : DB) (l : Ledger) : List Tx :=
  db.transactions.filter (fun t => decide (t.ledger = some l.uuid))

/-- The balance formula exactly as the spec's testable property writes it:
the sum of the quantities of the ledger's non-`FAILED` transactions, plus
the sum of the quantities of those transactions' reversals where one
exists. -/
def specFormulaBalance (db : DB) (l : Ledger) : Int :=
  let live := (ledgerTransactions db l).filter (fun t => decide (t.state ≠ TState.failed))
  (live.map Tx.quantity).sum +
    (live.map (fun t =>
      match db.reversals.find? (fun r => decide (r.transaction = some t.uuid)) with
      | some r => r.quantity
      | none => 0)).sum

/-- The combined row filter of the balance aggregation: belongs to the
ledger and is not `FAILED`. -/
def liveF (lu : Nat) (t : Tx) : Bool :=
  decide (t.state ≠ TState.failed) && decide (t.ledger = some lu)

/-! ## Concrete stores used to exercise the operations -/

def exLedger : Ledger :=
  { uuid := 0, idempotency_key := "lk", unit := "usd_cents", metadata := [] }

/-- A store holding one ledger and nothing else. -/
def exDb0 : DB :=
  { nextUuid := 1, ledgers := [exLedger], transactions := [], reversals := [], adjustments := [] }

/-- A committed deposit of 10 on `exLedger`. -/
def exTxDep : Tx :=
  { uuid := 1, ledger := some 0, idempotency_key := "dep", quantity := 10,
    state := TState.committed, metadata := [] }

/-- `exDb0` after the deposit: balance 10. -/
def exDb1 : DB :=
  { nextUuid := 2, ledgers := [exLedger], transactions := [exTxDep], reversals := [],
    adjustments := [] }

/-- The spend of -10 created by the first `create_transaction` call of the
C3 scenario. -/
def c3Spend : Tx :=
  { uuid := 2, ledger := some 0, idempotency_key := "spend", quantity := -10,
    state := TState.created, metadata := [] }

/-- `exDb1` after the spend: balance 0. -/
def c3Db2 : DB :=
  { nextUuid := 3, ledgers := [exLedger], transactions := [exTxDep, c3Spend], reversals := [],
    adjustments := [] }

/-- The spend of -5 created by the first call of the C3 witness scenario. -/
def c3wSpend : Tx :=
  { uuid := 2, ledger := some 0, idempotency_key := "k5", quantity := -5,
    state := TState.created, metadata := [] }

/-- `exDb1` after the -5 spend: balance 5, so the retry's re-validation passes. -/
def c3wDb2 : DB :=
  { nextUuid := 3, ledgers := [exLedger], transactions := [exTxDep, c3wSpend], reversals := [],
    adjustments := [] }

/-- The reversal created by reversing `exTxDep` in `exDb1`. -/
def c5Rev : Rev :=
  { uuid := 2, transaction := some 1, idempotency_key := "r1", quantity := -10,
    state := TState.committed, metadata := [] }

/-- `exDb1` after reversing the deposit. -/
def c5Db2 : DB :=
  { nextUuid := 3, ledgers := [exLedger], transactions := [exTxDep], reversals := [c5Rev],
    adjustments := [] }

/-- The result of the first reversal call on `exDb1`. -/
def c5Res : RevRes := ⟨c5Db2, c5Rev, [.transactionReversed c5Rev]⟩

/-- C2 scenario, step 1: a committed credit of 100 on `exLedger`. -/
def c2TxA : Tx :=
  { uuid := 1, ledger := some 0, idempotency_key := "k1", quantity := 100,
    state := TState.committed, metadata := [] }

/-- C2 scenario, step 2: a committed spend of -60. -/
def c2TxB : Tx :=
  { uuid := 2, ledger := some 0, idempotency_key := "k2", quantity := -60,
    state := TState.committed, metadata := [] }

/-- C2 scenario, step 3: the reversal of the +100 credit. -/
def c2Rev : Rev :=
  { uuid := 3, transaction := some 1, idempotency_key := "r1", quantity := -100,
    state := TState.committed, metadata := [] }

def c2Db1 : DB :=
  { nextUuid := 2, ledgers := [exLedger], transactions := [c2TxA], reversals := [],
    adjustments := [] }

def c2Db2 : DB :=
  { nextUuid := 3, ledgers := [exLedger], transactions := [c2TxA, c2TxB], reversals := [],
    adjustments := [] }

/-- The store after reversing the credit while the spend stands: balance -60. -/
def c2Db3 : DB :=
  { nextUuid := 4, ledgers := [exLedger], transactions := [c2TxA, c2TxB], reversals := [c2Rev],
    adjustments := [] }

/-- An `Adjustment` row already persisted with uuid 5, backing `exTxDep`. -/
def c7Adj0 : Adjustment :=
  { uuid := 5, ledger := 0, transaction := 1, transaction_of_interest := none,
    adjustment_quantity := 10, reason := "technical_challenges", notes := none }

/-- A store in which adjustment uuid 5 is already taken. -/
def c7Db : DB :=
  { nextUuid := 2, ledgers := [exLedger], transactions := [exTxDep], reversals := [],
    adjustments := [c7Adj0] }

theorem sum_rowTotal_split (rs : List Rev) (xs : List Tx) :
    (xs.map (rowTotal rs)).sum =
      (xs.map Tx.quantity).sum + (xs.map (fun t => revQ rs t.uuid)).sum := by
  induction xs with
  | nil => simp
  | cons a tl ih =>
    simp only [List.map_cons, List.sum_cons, ih, rowTotal]
    omega

theorem filter_self_filter {α : Type} (p : α → Bool) (l : List α) :
    (l.filter p).filter p = l.filter p := by
  rw [List.filter_filter]
  have h : (fun a => p a && p a) = p := funext (fun a => Bool.and_self _)
  rw [h]

/-! ## Theorems about the claims -/

/-- C1: for every ledger `L`, `balance(L)` equals the sum of the quantities
of `L`'s non-`FAILED` transactions plus the quantities of those
transactions' reversals where one exists; `FAILED` transactions contribute
nothing. -/
theorem C1_balance_equals_spec_formula (db : DB) (l : Ledger) :
    Ledger.balance db l = specFormulaBalance db l := by
  unfold Ledger.balance subset_balance specFormulaBalance ledgerTransactions excludeFailed
  rw [filter_self_filter]
  exact sum_rowTotal_split db.reversals _

/-- C10: `Ledger.save` on a row with a blank idempotency key assigns a
generated default, so every saved ledger's key is non-empty. -/
theorem C10_saved_ledger_key_nonempty (l : Ledger) (freshUuid : String) :
    (Ledger.save l freshUuid).idempotency_key ≠ "" := by
  unfold Ledger.save create_idempotency_key_for_ledger
  by_cases h : l.idempotency_key = ""
  · simp only [h, if_true, if_pos]
    intro hc
    have h2 := congrArg String.length hc
    rw [String.length_append] at h2
    have h3 : ("ledger-default-").length = 15 := rfl
    have h4 : ("" : String).length = 0 := rfl
    omega
  · simp only [h, if_neg, if_false]
    exact h

/-- C3, counterexample: with a committed deposit of 10 on the ledger, a
first `create_transaction(-10, "spend")` succeeds, bringing the balance to
0; the retry with the same `(ledger, idempotency_key)` re-runs the balance
validation (`balance + quantity < 0` now holds) and raises
`LedgerBalanceExceeded` instead of returning the existing row, so the two
calls do not yield equal results. -/
theorem C3_counterexample_retry_raises :
    create_transaction exDb1 exLedger (-10) "spend" TState.created [] = .ok (c3Db2, c3Spend) ∧
    create_transaction c3Db2 exLedger (-10) "spend" TState.created [] =
      .error ApiError.ledgerBalanceExceeded := by
  constructor
  · decide
  · decide

/-- C3 as amended: a second `create_transaction` with the same
`(ledger, idempotency_key)` returns the row persisted by the first call
unchanged and performs no write — provided the re-run balance validation
passes at the time of the second call; the check is re-executed, it is not
skipped. -/
theorem C3_amended_idempotent_when_revalidation_passes
    (db : DB) (l : Ledger) (q : Int) (key : String) (s : TState)
    (md : List (String × PyVal)) (db1 : DB) (t : Tx)
    (h1 : create_transaction db l q key s md = .ok (db1, t))
    (h2 : ¬(q < 0 ∧ Ledger.balance db1 l + q < 0)) :
    create_transaction db1 l q key s md = .ok (db1, t) := by
  unfold create_transaction at h1 ⊢
  rw [if_neg h2]
  by_cases hg : q < 0 ∧ Ledger.balance db l + q < 0
  · rw [if_pos hg] at h1
    exact absurd h1 (by simp)
  · rw [if_neg hg] at h1
    cases hfind : db.transactions.find? (fun t2 =>
        decide (t2.ledger = some l.uuid ∧ t2.idempotency_key = key)) with
    | some t0 =>
      rw [hfind] at h1
      have hdb : db = db1 := congrArg Prod.fst (Except.ok.inj h1)
      have ht : t0 = t := congrArg Prod.snd (Except.ok.inj h1)
      rw [← hdb, hfind, ht]
    | none =>
      rw [hfind] at h1
      have hdb := congrArg Prod.fst (Except.ok.inj h1)
      have ht := congrArg Prod.snd (Except.ok.inj h1)
      simp only at hdb ht
      rw [← hdb, ← ht]
      rw [List.find?_append, hfind]
      simp

/-- C5: reversing a committed, non-adjustment transaction twice with the
same idempotency key persists exactly one `Reversal` (quantity the
negation of the transaction's, state `COMMITTED`), and the second call
returns the same `Reversal` with the store unchanged, so the balance is
unaffected by the second call. -/
theorem C5_reverse_full_transaction_idempotent
    (db : DB) (t : Tx) (key : String) (md md2 : List (String × PyVal)) (res : RevRes)
    (ht : db.transactions.find? (fun t2 => decide (t2.uuid = t.uuid)) = some t)
    (hc : t.state = TState.committed)
    (hnoadj : get_adjustment db t.uuid = none)
    (hnorev : db.reversals.find? (fun r => decide (r.transaction = some t.uuid)) = none)
    (h1 : reverse_full_transaction db t.uuid key md = .ok res) :
    res.db.reversals = db.reversals ++ [res.reversal] ∧
    res.reversal.quantity = t.quantity * -1 ∧
    res.reversal.state = TState.committed ∧
    reverse_full_transaction res.db t.uuid key md2 =
      .ok ⟨res.db, res.reversal, [.transactionReversed res.reversal]⟩ := by
  have hall : ∀ r ∈ db.reversals, ¬(r.transaction = some t.uuid) := by
    rw [List.find?_eq_none] at hnorev
    intro r hr
    have := hnorev r hr
    simpa using this
  have h3 : db.reversals.find? (fun r =>
      decide (r.transaction = some t.uuid ∧ r.idempotency_key = key ∧
        r.state = TState.committed)) = none := by
    rw [List.find?_eq_none]
    intro r hr
    simp only [decide_eq_true_eq]
    intro hcon
    exact hall r hr hcon.1
  have h4 : db.reversals.any (fun r => decide (r.transaction = some t.uuid)) = false := by
    rw [List.any_eq_false]
    intro r hr
    simp only [decide_eq_true_eq]
    exact hall r hr
  unfold reverse_full_transaction at h1
  rw [hnoadj] at h1
  simp only [Option.isSome_none, Bool.false_eq_true, if_false, ite_false] at h1
  rw [ht] at h1
  simp only [hc, ne_eq, not_true_eq_false, if_false, ite_false] at h1
  rw [h3, h4] at h1
  simp only [Bool.false_eq_true, if_false, ite_false] at h1
  have hres := (Except.ok.inj h1).symm
  subst hres
  refine ⟨rfl, rfl, rfl, ?_⟩
  unfold reverse_full_transaction
  rw [show get_adjustment
      ({ db with
          nextUuid := db.nextUuid + 1
          reversals := db.reversals ++
            [{ uuid := db.nextUuid
               transaction := some t.uuid
               idempotency_key := key
               quantity := t.quantity * -1
               state := TState.committed
               metadata := md }] } : DB) t.uuid = none from hnoadj]
  simp only [Option.isSome_none, Bool.false_eq_true, if_false, ite_false]
  rw [show ({ db with
      nextUuid := db.nextUuid + 1
      reversals := db.reversals ++
        [{ uuid := db.nextUuid
           transaction := some t.uuid
           idempotency_key := key
           quantity := t.quantity * -1
           state := TState.committed
           metadata := md }] } : DB).transactions.find?
        (fun t2 => decide (t2.uuid = t.uuid)) = some t from ht]
  simp only [hc, ne_eq, not_true_eq_false, if_false, ite_false]
  rw [List.find?_append, h3]
  simp

/-- C3, witness for the amended theorem: after a -5 spend on a balance of
10, the retry's re-validation passes and the second call returns the row
persisted by the first call, with no write. -/
theorem C3_amended_witness :
    create_transaction c3wDb2 exLedger (-5) "k5" TState.created [] = .ok (c3wDb2, c3wSpend) :=
  C3_amended_idempotent_when_revalidation_passes exDb1 exLedger (-5) "k5" TState.created []
    c3wDb2 c3wSpend (by decide) (by decide)

/-- C5, witness: reversing the committed deposit `exTxDep` in `exDb1` and
then replaying the reversal with the same key. -/
theorem C5_witness :
    c5Res.db.reversals = exDb1.reversals ++ [c5Res.reversal] ∧
    c5Res.reversal.quantity = exTxDep.quantity * -1 ∧
    c5Res.reversal.state = TState.committed ∧
    reverse_full_transaction c5Res.db exTxDep.uuid "r1" [] =
      .ok ⟨c5Res.db, c5Res.reversal, [.transactionReversed c5Res.reversal]⟩ :=
  C5_reverse_full_transaction_idempotent exDb1 exTxDep "r1" [] [] c5Res
    (by decide) (by decide) (by decide) (by decide) (by decide)

/-- C6, counterexample: the first reversal call on `exDb1` creates the
reversal; the replay with the same `(transaction, idempotency_key)`
returns the pre-existing reversal with the store unchanged — yet its
result still carries a `TRANSACTION_REVERSED` emission, because
`api.reverse_full_transaction` sends the signal unconditionally, ignoring
the `created` flag of `get_or_create`. -/
theorem C6_counterexample_replay_emits :
    reverse_full_transaction exDb1 1 "r1" [] = .ok c5Res ∧
    reverse_full_transaction c5Db2 1 "r1" [] =
      .ok ⟨c5Db2, c5Rev, [LedgerEvent.transactionReversed c5Rev]⟩ ∧
    [LedgerEvent.transactionReversed c5Rev] ≠ ([] : List LedgerEvent) := by
  refine ⟨by decide, by decide, by decide⟩

/-- C6 as amended: every successful `reverse_full_transaction` call —
fresh creation and idempotent replay alike — emits exactly one
`TRANSACTION_REVERSED` event carrying the returned reversal. -/
theorem C6_amended_event_on_every_success
    (db : DB) (u : Nat) (key : String) (md : List (String × PyVal)) (res : RevRes)
    (h : reverse_full_transaction db u key md = .ok res) :
    res.events = [LedgerEvent.transactionReversed res.reversal] := by
  unfold reverse_full_transaction at h
  split at h
  · exact absurd h (by simp)
  · split at h
    · exact absurd h (by simp)
    · split at h
      · exact absurd h (by simp)
      · split at h
        · cases Except.ok.inj h
          rfl
        · split at h
          · exact absurd h (by simp)
          · cases Except.ok.inj h
            rfl

/-- C6, witness for the amended theorem: the creating call on `exDb1`
emits the event for the reversal it returns. -/
theorem C6_amended_witness :
    c5Res.events = [LedgerEvent.transactionReversed c5Res.reversal] :=
  C6_amended_event_on_every_success exDb1 1 "r1" [] c5Res (by decide)

theorem balance_norm (db : DB) (l : Ledger) :
    Ledger.balance db l =
      ((db.transactions.filter (liveF l.uuid)).map (rowTotal db.reversals)).sum := by
  unfold Ledger.balance subset_balance excludeFailed liveF
  dsimp only
  rw [filter_self_filter, List.filter_filter]

theorem balance_only_uuid (db : DB) (l1 l2 : Ledger) (h : l1.uuid = l2.uuid) :
    Ledger.balance db l1 = Ledger.balance db l2 := by
  rw [balance_norm, balance_norm, h]

theorem sum_map_add {α : Type} (f g : α → Int) :
    ∀ l : List α, (l.map (fun x => f x + g x)).sum = (l.map f).sum + (l.map g).sum
  | [] => by simp
  | a :: l => by
    simp only [List.map_cons, List.sum_cons, sum_map_add f g l]
    omega

theorem rowTotal_append_rev (rs : List Rev) (r : Rev) (u : Nat) (x : Tx)
    (hr : r.transaction = some u)
    (h0 : rs.find? (fun r2 => decide (r2.transaction = some u)) = none) :
    rowTotal (rs ++ [r]) x = rowTotal rs x + (if x.uuid = u then r.quantity else 0) := by
  unfold rowTotal revQ
  rw [List.find?_append]
  by_cases hx : x.uuid = u
  · rw [hx, h0]
    simp [hr]
  · cases hfind : rs.find? (fun r2 => decide (r2.transaction = some x.uuid)) with
    | some r0 => simp [hfind, hx]
    | none =>
      have : (decide (r.transaction = some x.uuid)) = false := by
        simp [hr]
        intro hc
        exact hx hc.symm
      simp [hfind, this, hx]

theorem sum_ind_zero (u : Nat) (q : Int) (p : Tx → Bool) (xs : List Tx)
    (h : ∀ x ∈ xs, x.uuid ≠ u) :
    ((xs.filter p).map (fun x => if x.uuid = u then q else 0)).sum = 0 := by
  induction xs with
  | nil => simp
  | cons a tl ih =>
    have ha := h a (List.mem_cons_self a tl)
    have htl : ∀ x ∈ tl, x.uuid ≠ u := fun x hx => h x (List.mem_cons_of_mem a hx)
    by_cases hp : p a
    · simp [List.filter_cons, hp, ha, ih htl]
    · simp [List.filter_cons, hp, ih htl]

theorem sum_ind (u : Nat) (q : Int) (p : Tx → Bool) (t : Tx) (ts : List Tx)
    (ht : t ∈ ts) (htu : t.uuid = u) (hnodup : (ts.map Tx.uuid).Nodup) :
    ((ts.filter p).map (fun x => if x.uuid = u then q else 0)).sum =
      if p t then q else 0 := by
  induction ts with
  | nil => cases ht
  | cons a tl ih =>
    have hnodup2 : (tl.map Tx.uuid).Nodup := (List.nodup_cons.mp hnodup).2
    have hnotmem : a.uuid ∉ tl.map Tx.uuid := (List.nodup_cons.mp hnodup).1
    rcases List.mem_cons.mp ht with rfl | hmem
    · have htl0 : ∀ x ∈ tl, x.uuid ≠ u := by
        intro x hx hxu
        exact hnotmem (List.mem_map.mpr ⟨x, hx, by rw [hxu, htu]⟩)
      by_cases hp : p t
      · simp [List.filter_cons, hp, htu, sum_ind_zero u q p tl htl0]
      · simp [List.filter_cons, hp, sum_ind_zero u q p tl htl0]
    · have hau : a.uuid ≠ u := by
        intro hc
        exact hnotmem (List.mem_map.mpr ⟨t, hmem, by rw [htu, hc]⟩)
      by_cases hp : p a
      · simp [List.filter_cons, hp, hau, ih hmem hnodup2]
      · simp [List.filter_cons, hp, ih hmem hnodup2]

theorem balance_append_tx (db : DB) (l : Ledger) (t : Tx) (n : Nat)
    (hfresh : db.reversals.find? (fun r => decide (r.transaction = some t.uuid)) = none) :
    Ledger.balance { db with nextUuid := n, transactions := db.transactions ++ [t] } l =
      Ledger.balance db l + (if liveF l.uuid t then t.quantity else 0) := by
  rw [balance_norm, balance_norm]
  show (((db.transactions ++ [t]).filter (liveF l.uuid)).map (rowTotal db.reversals)).sum = _
  rw [List.filter_append, List.map_append, List.sum_append]
  by_cases hl : liveF l.uuid t
  · simp [List.filter_cons, hl, rowTotal, revQ, hfresh]
  · simp [List.filter_cons, hl]

theorem balance_append_rev (db : DB) (l : Ledger) (r : Rev) (t : Tx) (n : Nat)
    (ht : t ∈ db.transactions)
    (hnodup : (db.transactions.map Tx.uuid).Nodup)
    (hr : r.transaction = some t.uuid)
    (h0 : db.reversals.find? (fun r2 => decide (r2.transaction = some t.uuid)) = none) :
    Ledger.balance { db with nextUuid := n, reversals := db.reversals ++ [r] } l =
      Ledger.balance db l + (if liveF l.uuid t then r.quantity else 0) := by
  rw [balance_norm, balance_norm]
  show ((db.transactions.filter (liveF l.uuid)).map (rowTotal (db.reversals ++ [r]))).sum = _
  have hpt : ∀ x ∈ db.transactions.filter (liveF l.uuid),
      rowTotal (db.reversals ++ [r]) x =
        rowTotal db.reversals x + (if x.uuid = t.uuid then r.quantity else 0) :=
    fun x _ => rowTotal_append_rev db.reversals r t.uuid x hr h0
  rw [List.map_congr_left hpt, sum_map_add]
  congr 1
  exact sum_ind t.uuid r.quantity (liveF l.uuid) t db.transactions ht rfl hnodup

theorem find?_rev_none_of_wf (db : DB) (hwf : WF db) :
    db.reversals.find? (fun r => decide (r.transaction = some db.nextUuid)) = none := by
  rw [List.find?_eq_none]
  intro r hr
  simp only [decide_eq_true_eq]
  intro hc
  exact absurd (hwf.revFresh r hr db.nextUuid hc) (lt_irrefl _)

theorem create_transaction_ok_cases (db : DB) (l : Ledger) (q : Int) (key : String)
    (s : TState) (md : List (String × PyVal)) (db1 : DB) (t : Tx)
    (h : create_transaction db l q key s md = .ok (db1, t)) :
    ¬(q < 0 ∧ Ledger.balance db l + q < 0) ∧
    ((db1 = db ∧ t ∈ db.transactions) ∨
     (db1 = { db with nextUuid := db.nextUuid + 1, transactions := db.transactions ++ [t] } ∧
      t = { uuid := db.nextUuid, ledger := some l.uuid, idempotency_key := key, quantity := q,
            state := s, metadata := md })) := by
  unfold create_transaction at h
  by_cases hg : q < 0 ∧ Ledger.balance db l + q < 0
  · rw [if_pos hg] at h
    exact absurd h (by simp)
  · rw [if_neg hg] at h
    refine ⟨hg, ?_⟩
    cases hfind : db.transactions.find? (fun t2 =>
        decide (t2.ledger = some l.uuid ∧ t2.idempotency_key = key)) with
    | some t0 =>
      rw [hfind] at h
      have h2 := Except.ok.inj h
      have hfst : db = db1 := congrArg Prod.fst h2
      have hsnd : t0 = t := congrArg Prod.snd h2
      left
      exact ⟨hfst.symm, hsnd ▸ List.mem_of_find?_eq_some hfind⟩
    | none =>
      rw [hfind] at h
      have h2 := Except.ok.inj h
      have hfst := congrArg Prod.fst h2
      have hsnd := congrArg Prod.snd h2
      simp only at hfst hsnd
      right
      subst hsnd
      exact ⟨hfst.symm, rfl⟩

theorem wf_of_fields (db db2 : DB) (hwf : WF db)
    (htx : db2.transactions = db.transactions)
    (hrv : db2.reversals = db.reversals)
    (hn : db.nextUuid ≤ db2.nextUuid) : WF db2 := by
  constructor
  · rw [htx]; exact hwf.txNodup
  · intro t ht
    rw [htx] at ht
    exact lt_of_lt_of_le (hwf.txFresh t ht) hn
  · intro r hr u hu
    rw [hrv] at hr
    exact lt_of_lt_of_le (hwf.revFresh r hr u hu) hn

theorem create_transaction_preserves (db : DB) (l : Ledger) (q : Int) (key : String)
    (s : TState) (md : List (String × PyVal)) (db1 : DB) (t : Tx) (hwf : WF db)
    (h : create_transaction db l q key s md = .ok (db1, t)) :
    WF db1 ∧ ∀ l2, 0 ≤ Ledger.balance db l2 → 0 ≤ Ledger.balance db1 l2 := by
  obtain ⟨hg, hcases⟩ := create_transaction_ok_cases db l q key s md db1 t h
  rcases hcases with ⟨hdb, hmem⟩ | ⟨hdb, ht⟩
  · subst hdb
    exact ⟨hwf, fun l2 h0 => h0⟩
  · subst ht
    subst hdb
    constructor
    · constructor
      · rw [List.map_append, List.nodup_append]
        refine ⟨hwf.txNodup, List.nodup_singleton _, ?_⟩
        intro a ha hb
        obtain ⟨x, hx, hxu⟩ := List.mem_map.mp ha
        have hlt := hwf.txFresh x hx
        simp only [List.map_cons, List.map_nil, List.mem_singleton] at hb
        omega
      · intro t2 ht2
        rcases List.mem_append.mp ht2 with hin | hin
        · exact Nat.lt_succ_of_lt (hwf.txFresh t2 hin)
        · simp only [List.mem_singleton] at hin
          subst hin
          exact Nat.lt_succ_self _
      · intro r hr u hu
        exact Nat.lt_succ_of_lt (hwf.revFresh r hr u hu)
    · intro l2 h0
      rw [balance_append_tx db l2 _ _ (find?_rev_none_of_wf db hwf)]
      by_cases hl : liveF l2.uuid
          { uuid := db.nextUuid, ledger := some l.uuid, idempotency_key := key, quantity := q,
            state := s, metadata := md }
      · rw [if_pos hl]
        have huuid : l.uuid = l2.uuid := by
          unfold liveF at hl
          rw [Bool.and_eq_true] at hl
          have := of_decide_eq_true hl.2
          exact Option.some.inj this
        have hbal : Ledger.balance db l = Ledger.balance db l2 := balance_only_uuid db l l2 huuid
        show 0 ≤ Ledger.balance db l2 + q
        by_cases hq : q < 0
        · have hge : ¬(Ledger.balance db l + q < 0) := fun hc => hg ⟨hq, hc⟩
          omega
        · omega
      · rw [if_neg hl]
        omega

theorem reverse_ok_cases (db : DB) (u : Nat) (key : String) (md : List (String × PyVal))
    (res : RevRes) (h : reverse_full_transaction db u key md = .ok res) :
    res.db = db ∨
    ∃ t, db.transactions.find? (fun t2 => decide (t2.uuid = u)) = some t ∧
      res.reversal.transaction = some t.uuid ∧
      res.reversal.quantity = t.quantity * -1 ∧
      db.reversals.find? (fun r2 => decide (r2.transaction = some t.uuid)) = none ∧
      res.db = { db with
        nextUuid := db.nextUuid + 1
        reversals := db.reversals ++ [res.reversal] } := by
  unfold reverse_full_transaction at h
  split at h
  · exact absurd h (by simp)
  · split at h
    · exact absurd h (by simp)
    · rename_i transaction hfind
      split at h
      · exact absurd h (by simp)
      · split at h
        · cases Except.ok.inj h
          left
          rfl
        · rename_i hfindrev
          split at h
          · exact absurd h (by simp)
          · rename_i hany
            cases Except.ok.inj h
            right
            refine ⟨transaction, hfind, rfl, rfl, ?_, rfl⟩
            rw [List.find?_eq_none]
            intro r hr
            have hfalse := Bool.not_eq_true _ |>.mp hany
            rw [List.any_eq_false] at hfalse
            exact fun hc => hfalse r hr hc

theorem reverse_preserves (db : DB) (u : Nat) (key : String) (md : List (String × PyVal))
    (res : RevRes) (hwf : WF db)
    (h : reverse_full_transaction db u key md = .ok res)
    (hq : ∀ t ∈ db.transactions, t.uuid = u → t.quantity ≤ 0) :
    WF res.db ∧ ∀ l2, 0 ≤ Ledger.balance db l2 → 0 ≤ Ledger.balance res.db l2 := by
  rcases reverse_ok_cases db u key md res h with hdb | ⟨t, hfind, hrt, hrq, h0, hdb⟩
  · rw [hdb]
    exact ⟨hwf, fun l2 hb => hb⟩
  · have htmem : t ∈ db.transactions := List.mem_of_find?_eq_some hfind
    have htu : t.uuid = u := by
      have := List.find?_some hfind
      simpa using this
    have htq : t.quantity ≤ 0 := hq t htmem htu
    have hrevq : 0 ≤ res.reversal.quantity := by rw [hrq]; omega
    rw [hdb]
    constructor
    · constructor
      · exact hwf.txNodup
      · intro t2 ht2
        exact Nat.lt_succ_of_lt (hwf.txFresh t2 ht2)
      · intro r hr u2 hu2
        rcases List.mem_append.mp hr with hin | hin
        · exact Nat.lt_succ_of_lt (hwf.revFresh r hin u2 hu2)
        · simp only [List.mem_singleton] at hin
          subst hin
          rw [hrt] at hu2
          have : u2 = t.uuid := (Option.some.inj hu2).symm
          subst this
          exact Nat.lt_succ_of_lt (hwf.txFresh t htmem)
    · intro l2 hb
      rw [balance_append_rev db l2 res.reversal t _ htmem hwf.txNodup hrt h0]
      by_cases hl : liveF l2.uuid t
      · rw [if_pos hl]
        omega
      · rw [if_neg hl]
        omega

theorem balance_ignores_counter_ledgers_adjustments (db db2 : DB) (l : Ledger)
    (htx : db2.transactions = db.transactions) (hrv : db2.reversals = db.reversals) :
    Ledger.balance db2 l = Ledger.balance db l := by
  rw [balance_norm, balance_norm, htx, hrv]

theorem ledger_get_or_create_preserves (db0 : DB) (unitVal keyStr : String)
    (md : List (String × PyVal)) (hwf : WF db0) :
    WF (ledger_get_or_create db0 unitVal keyStr md).1 ∧
    ∀ l2, Ledger.balance (ledger_get_or_create db0 unitVal keyStr md).1 l2 =
      Ledger.balance db0 l2 := by
  unfold ledger_get_or_create
  cases hfind : db0.ledgers.find? (fun l =>
      decide (l.unit = unitVal ∧ l.idempotency_key = keyStr)) with
  | some l =>
    exact ⟨hwf, fun l2 => rfl⟩
  | none =>
    refine ⟨wf_of_fields db0 _ hwf rfl rfl (Nat.le_succ _), fun l2 => ?_⟩
    exact balance_ignores_counter_ledgers_adjustments db0 _ l2 rfl rfl

theorem create_ledger_deposit_preserves (db1 : DB) (ledger : Ledger) (d : Option Int)
    (hwf : WF db1) :
    WF (create_ledger_deposit db1 ledger d).1 ∧
    ∀ l2, 0 ≤ Ledger.balance db1 l2 →
      0 ≤ Ledger.balance (create_ledger_deposit db1 ledger d).1 l2 := by
  unfold create_ledger_deposit
  cases d with
  | none => exact ⟨hwf, fun l2 h => h⟩
  | some dep =>
    dsimp only
    by_cases hdep : dep = 0
    · subst hdep
      rw [if_pos rfl]
      exact ⟨hwf, fun l2 h => h⟩
    · rw [if_neg hdep]
      cases hct : create_transaction db1 ledger dep
          (create_idempotency_key_for_transaction ledger dep true [] "") TState.committed [] with
      | ok p =>
        obtain ⟨db2, tr⟩ := p
        dsimp only
        obtain ⟨hwf2, hbal2⟩ := create_transaction_preserves db1 ledger dep
          (create_idempotency_key_for_transaction ledger dep true [] "") TState.committed []
          db2 tr hwf hct
        exact ⟨hwf2, hbal2⟩
      | error e =>
        dsimp only
        exact ⟨hwf, fun l2 h => h⟩

theorem create_ledger_preserves (db : DB) (unit key su : Option String) (d : Option Int)
    (md : List (String × PyVal)) (hwf : WF db) :
    WF (create_ledger db unit key su d md).1 ∧
    ∀ l2, 0 ≤ Ledger.balance db l2 →
      0 ≤ Ledger.balance (create_ledger db unit key su d md).1 l2 := by
  unfold create_ledger
  dsimp only
  have stage : ∀ (keyed : String × DB), WF keyed.2 →
      (∀ l2, Ledger.balance keyed.2 l2 = Ledger.balance db l2) →
      WF (create_ledger_deposit
            (ledger_get_or_create keyed.2 (pyOrStr unit "usd_cents") keyed.1 md).1
            (ledger_get_or_create keyed.2 (pyOrStr unit "usd_cents") keyed.1 md).2 d).1 ∧
      ∀ l2, 0 ≤ Ledger.balance db l2 →
        0 ≤ Ledger.balance (create_ledger_deposit
              (ledger_get_or_create keyed.2 (pyOrStr unit "usd_cents") keyed.1 md).1
              (ledger_get_or_create keyed.2 (pyOrStr unit "usd_cents") keyed.1 md).2 d).1 l2 := by
    intro keyed hwf0 hbal0
    obtain ⟨hwf1, hbal1⟩ :=
      ledger_get_or_create_preserves keyed.2 (pyOrStr unit "usd_cents") keyed.1 md hwf0
    obtain ⟨hwf2, hbal2⟩ := create_ledger_deposit_preserves
      (ledger_get_or_create keyed.2 (pyOrStr unit "usd_cents") keyed.1 md).1
      (ledger_get_or_create keyed.2 (pyOrStr unit "usd_cents") keyed.1 md).2 d hwf1
    refine ⟨hwf2, fun l2 h0 => hbal2 l2 ?_⟩
    rw [hbal1 l2, hbal0 l2]
    exact h0
  cases key with
  | some s =>
    by_cases hs : s = ""
    · simp only [hs, if_pos rfl]
      exact stage _ (wf_of_fields db _ hwf rfl rfl (Nat.le_succ _))
        (fun l2 => balance_ignores_counter_ledgers_adjustments db _ l2 rfl rfl)
    · simp only [if_neg hs]
      exact stage (s, db) hwf (fun l2 => rfl)
  | none =>
    exact stage _ (wf_of_fields db _ hwf rfl rfl (Nat.le_succ _))
      (fun l2 => balance_ignores_counter_ledgers_adjustments db _ l2 rfl rfl)


theorem create_adjustment_atomic_preserves (db0 : DB) (l : Ledger) (q : Int)
    (txKey : String) (au : Option Nat) (reason : String) (notes : Option String)
    (toi : Option Nat) (md : List (String × PyVal)) (db2 : DB) (adj : Adjustment)
    (hwf : WF db0)
    (h : create_adjustment_atomic db0 l q txKey au reason notes toi md = .ok (db2, adj)) :
    WF db2 ∧ ∀ l2, 0 ≤ Ledger.balance db0 l2 → 0 ≤ Ledger.balance db2 l2 := by
  unfold create_adjustment_atomic at h
  cases hct : create_transaction db0 l q txKey TState.committed md with
  | error e =>
    rw [hct] at h
    exact absurd h (by simp)
  | ok p =>
    obtain ⟨db1, tr⟩ := p
    rw [hct] at h
    obtain ⟨hwf1, hbal1⟩ :=
      create_transaction_preserves db0 l q txKey TState.committed md db1 tr hwf hct
    cases au with
    | some uu =>
      dsimp only at h
      split at h
      · exact absurd h (by simp)
      · have h2 := Except.ok.inj h
        have hfst := congrArg Prod.fst h2
        dsimp only at hfst
        rw [← hfst]
        refine ⟨wf_of_fields db1 _ hwf1 rfl rfl le_rfl, fun l2 h0 => ?_⟩
        exact hbal1 l2 h0
    | none =>
      dsimp only at h
      split at h
      · exact absurd h (by simp)
      · have h2 := Except.ok.inj h
        have hfst := congrArg Prod.fst h2
        dsimp only at hfst
        rw [← hfst]
        refine ⟨wf_of_fields db1 _ hwf1 rfl rfl (Nat.le_succ _), fun l2 h0 => ?_⟩
        exact hbal1 l2 h0

theorem create_adjustment_preserves (db : DB) (l : Ledger) (q : Int) (au : Option Nat)
    (reason : String) (notes : Option String) (key : Option String) (toi : Option Nat)
    (md : List (String × PyVal)) (db2 : DB) (adj : Adjustment) (hwf : WF db)
    (h : create_adjustment db l q au reason notes key toi md = .ok (db2, adj)) :
    WF db2 ∧ ∀ l2, 0 ≤ Ledger.balance db l2 → 0 ≤ Ledger.balance db2 l2 := by
  unfold create_adjustment at h
  cases key with
  | some k =>
    dsimp only at h
    exact create_adjustment_atomic_preserves db l q k au reason notes toi md db2 adj hwf h
  | none =>
    dsimp only at h
    obtain ⟨hwf2, hbal2⟩ := create_adjustment_atomic_preserves
      { db with nextUuid := db.nextUuid + 1 } l q
      (toString l.uuid ++ "-adjustment-" ++ toString q ++ "-reason-" ++ toString db.nextUuid)
      au reason notes toi md db2 adj
      (wf_of_fields db { db with nextUuid := db.nextUuid + 1 } hwf rfl rfl (Nat.le_succ _)) h
    refine ⟨hwf2, fun l2 h0 => hbal2 l2 ?_⟩
    rw [balance_ignores_counter_ledgers_adjustments db
      { db with nextUuid := db.nextUuid + 1 } l2 rfl rfl]
    exact h0

/-- C2, counterexample: a committed credit of 100, a committed spend of
-60, then a successful `reverse_full_transaction` of the credit — every
operation completes successfully, yet the final balance is -60.  The
reversal path performs no balance check, so reversing a positive-quantity
transaction can drive the ledger negative. -/
theorem C2_counterexample_reversal_drives_negative :
    create_transaction exDb0 exLedger 100 "k1" TState.committed [] = .ok (c2Db1, c2TxA) ∧
    create_transaction c2Db1 exLedger (-60) "k2" TState.committed [] = .ok (c2Db2, c2TxB) ∧
    reverse_full_transaction c2Db2 1 "r1" [] =
      .ok ⟨c2Db3, c2Rev, [.transactionReversed c2Rev]⟩ ∧
    Ledger.balance c2Db3 exLedger = -60 := by
  refine ⟨by decide, by decide, by decide, by decide⟩

/-- C2 as amended: over well-formed stores, every successfully completing
core operation — `create_transaction`, `create_adjustment`, `create_ledger`
with an initial deposit, and `reverse_full_transaction` restricted to
transactions of non-positive quantity — keeps every ledger's balance
non-negative (and keeps the store well-formed); only reversing a
positive-quantity transaction escapes the invariant. -/
theorem C2_amended_operations_preserve_nonnegative_balance
    (db : DB) (l : Ledger) (op : Op) (hwf : WF db) (h0 : 0 ≤ Ledger.balance db l)
    (hop : ∀ u k md, op = Op.reverseFullTransaction u k md →
      ∀ t ∈ db.transactions, t.uuid = u → t.quantity ≤ 0) :
    0 ≤ Ledger.balance (applyOp db op) l ∧ WF (applyOp db op) := by
  cases op with
  | createTransaction lu q k s md =>
    unfold applyOp
    dsimp only
    cases hl : lookupLedger db lu with
    | none => exact ⟨h0, hwf⟩
    | some l3 =>
      dsimp only
      cases hct : create_transaction db l3 q k s md with
      | ok p =>
        obtain ⟨db1, tr⟩ := p
        dsimp only
        obtain ⟨hwf1, hbal1⟩ := create_transaction_preserves db l3 q k s md db1 tr hwf hct
        exact ⟨hbal1 l h0, hwf1⟩
      | error e =>
        dsimp only
        exact ⟨h0, hwf⟩
  | reverseFullTransaction u k md =>
    unfold applyOp
    dsimp only
    cases hr : reverse_full_transaction db u k md with
    | ok res =>
      dsimp only
      obtain ⟨hwf1, hbal1⟩ := reverse_preserves db u k md res hwf hr (hop u k md rfl)
      exact ⟨hbal1 l h0, hwf1⟩
    | error e =>
      dsimp only
      exact ⟨h0, hwf⟩
  | createAdjustment lu q au reason notes key toi md =>
    unfold applyOp
    dsimp only
    cases hl : lookupLedger db lu with
    | none => exact ⟨h0, hwf⟩
    | some l3 =>
      dsimp only
      cases hca : create_adjustment db l3 q au reason notes key toi md with
      | ok p =>
        obtain ⟨db1, adj⟩ := p
        dsimp only
        obtain ⟨hwf1, hbal1⟩ :=
          create_adjustment_preserves db l3 q au reason notes key toi md db1 adj hwf hca
        exact ⟨hbal1 l h0, hwf1⟩
      | error e =>
        dsimp only
        exact ⟨h0, hwf⟩
  | createLedger u k su d md =>
    unfold applyOp
    dsimp only
    obtain ⟨hwf1, hbal1⟩ := create_ledger_preserves db u k su d md hwf
    exact ⟨hbal1 l h0, hwf1⟩

/-- C2, witness for the amended theorem: applying a -10 spend to the
well-formed store with balance 10 keeps the balance non-negative. -/
theorem C2_amended_witness :
    0 ≤ Ledger.balance
        (applyOp exDb1 (Op.createTransaction 0 (-10) "spend" TState.created [])) exLedger ∧
    WF (applyOp exDb1 (Op.createTransaction 0 (-10) "spend" TState.created [])) :=
  C2_amended_operations_preserve_nonnegative_balance exDb1 exLedger
    (Op.createTransaction 0 (-10) "spend" TState.created [])
    ⟨by decide, by decide, fun r hr => absurd hr (List.not_mem_nil r)⟩
    (by decide)
    (fun u k md heq => Op.noConfusion heq)

/-- C4: a `create_transaction` call with negative quantity that would
drive the balance negative raises `LedgerBalanceExceeded` with no write
(the error carries no store, so the balance is unchanged); consequently no
sequence of `create_transaction` calls can leave the balance of a
well-formed store negative. -/
theorem C4_balance_check_and_nonnegative_invariant :
    (∀ (db : DB) (l : Ledger) (q : Int) (key : String) (s : TState)
        (md : List (String × PyVal)),
      q < 0 → Ledger.balance db l + q < 0 →
      create_transaction db l q key s md = .error ApiError.ledgerBalanceExceeded) ∧
    (∀ (db : DB) (l : Ledger) (ops : List Op), WF db → 0 ≤ Ledger.balance db l →
      (∀ op ∈ ops, ∃ lu q k s md, op = Op.createTransaction lu q k s md) →
      0 ≤ Ledger.balance (run db ops) l) := by
  constructor
  · intro db l q key s md hq hb
    unfold create_transaction
    rw [if_pos ⟨hq, hb⟩]
  · intro db l ops
    induction ops generalizing db with
    | nil =>
      intro _ h0 _
      exact h0
    | cons op tl ih =>
      intro hwf h0 hops
      obtain ⟨lu, q, k, s, md, rfl⟩ := hops op (List.mem_cons_self op tl)
      show 0 ≤ Ledger.balance (run (applyOp db (Op.createTransaction lu q k s md)) tl) l
      have hstep : 0 ≤ Ledger.balance (applyOp db (Op.createTransaction lu q k s md)) l ∧
          WF (applyOp db (Op.createTransaction lu q k s md)) := by
        unfold applyOp
        dsimp only
        cases hl : lookupLedger db lu with
        | none => exact ⟨h0, hwf⟩
        | some l3 =>
          dsimp only
          cases hct : create_transaction db l3 q k s md with
          | ok p =>
            obtain ⟨db1, tr⟩ := p
            dsimp only
            obtain ⟨hwf1, hbal1⟩ := create_transaction_preserves db l3 q k s md db1 tr hwf hct
            exact ⟨hbal1 l h0, hwf1⟩
          | error e =>
            dsimp only
            exact ⟨h0, hwf⟩
      exact ih _ hstep.2 hstep.1 (fun op2 hop2 => hops op2 (List.mem_cons_of_mem _ hop2))

/-- C4, witness: on a fresh ledger the -1 spend raises, and a sequence of
two spends on the balance-10 store (the second of which would overdraw and
raises) leaves the balance non-negative. -/
theorem C4_witness :
    create_transaction exDb0 exLedger (-1) "tx-1" TState.created [] =
      .error ApiError.ledgerBalanceExceeded ∧
    0 ≤ Ledger.balance
        (run exDb1
          [Op.createTransaction 0 (-10) "spend" TState.created [],
           Op.createTransaction 0 (-10) "spend2" TState.created []]) exLedger :=
  ⟨C4_balance_check_and_nonnegative_invariant.1 exDb0 exLedger (-1) "tx-1" TState.created []
      (by decide) (by decide),
   C4_balance_check_and_nonnegative_invariant.2 exDb1 exLedger
      [Op.createTransaction 0 (-10) "spend" TState.created [],
       Op.createTransaction 0 (-10) "spend2" TState.created []]
      ⟨by decide, by decide, fun r hr => absurd hr (List.not_mem_nil r)⟩
      (by decide)
      (by
        intro op hop
        rcases List.mem_cons.mp hop with rfl | hop2
        · exact ⟨0, -10, "spend", TState.created, [], rfl⟩
        · rcases List.mem_cons.mp hop2 with rfl | hop3
          · exact ⟨0, -10, "spend2", TState.created, [], rfl⟩
          · exact absurd hop3 (List.not_mem_nil op))⟩

theorem create_adjustment_error_wrapped (db : DB) (l : Ledger) (q : Int) (au : Option Nat)
    (reason : String) (notes : Option String) (key : Option String) (toi : Option Nat)
    (md : List (String × PyVal)) (e : ApiError)
    (h : create_adjustment db l q au reason notes key toi md = .error e) :
    ∃ cause, e = ApiError.adjustmentCreationError cause := by
  unfold create_adjustment at h
  have main : ∀ (db0 : DB) (txKey : String),
      create_adjustment_atomic db0 l q txKey au reason notes toi md = .error e →
      ∃ cause, e = ApiError.adjustmentCreationError cause := by
    intro db0 txKey hm
    unfold create_adjustment_atomic at hm
    cases hct : create_transaction db0 l q txKey TState.committed md with
    | error e2 =>
      rw [hct] at hm
      exact ⟨e2, (Except.error.inj hm).symm⟩
    | ok p =>
      obtain ⟨db1, tr⟩ := p
      rw [hct] at hm
      cases au with
      | some uu =>
        dsimp only at hm
        split at hm
        · exact ⟨.integrityError, (Except.error.inj hm).symm⟩
        · exact absurd hm (by simp)
      | none =>
        dsimp only at hm
        split at hm
        · exact ⟨.integrityError, (Except.error.inj hm).symm⟩
        · exact absurd hm (by simp)
  cases key with
  | some k =>
    dsimp only at h
    exact main db k h
  | none =>
    dsimp only at h
    exact main _ _ h

/-- C7: every failure inside `create_adjustment`'s two-step sequence — a
balance-exceeded condition on the transaction step or a uniqueness
violation on the adjustment step — surfaces as `AdjustmentCreationError`
wrapping the underlying cause, and the atomic block rolls back: the
runner's store after the failed call is the store before it, so no
transaction or adjustment persists and every balance is unchanged. -/
theorem C7_adjustment_failure_wrapped_and_rolled_back
    (db : DB) (l : Ledger) (q : Int) (au : Option Nat) (reason : String)
    (notes : Option String) (key : Option String) (toi : Option Nat)
    (md : List (String × PyVal)) (e : ApiError)
    (h : create_adjustment db l q au reason notes key toi md = .error e)
    (hl : lookupLedger db l.uuid = some l) :
    (∃ cause, e = ApiError.adjustmentCreationError cause) ∧
    applyOp db (Op.createAdjustment l.uuid q au reason notes key toi md) = db := by
  refine ⟨create_adjustment_error_wrapped db l q au reason notes key toi md e h, ?_⟩
  unfold applyOp
  dsimp only
  rw [hl]
  dsimp only
  rw [h]

/-- C7, witness: reusing the already-persisted adjustment uuid 5 in `c7Db`
fails with a wrapped integrity error and leaves the store untouched. -/
theorem C7_witness :
    (∃ cause, ApiError.adjustmentCreationError ApiError.integrityError =
      ApiError.adjustmentCreationError cause) ∧
    applyOp c7Db (Op.createAdjustment exLedger.uuid 7 (some 5) "why" none
      (some "adjkey") none []) = c7Db :=
  C7_adjustment_failure_wrapped_and_rolled_back c7Db exLedger 7 (some 5) "why" none
    (some "adjkey") none [] (ApiError.adjustmentCreationError ApiError.integrityError)
    (by decide) (by decide)

/-- C9: on the same ledger a first `acquire_lock` returns a non-null token
and a second (no release between) returns null, the scoped `lock()`
raising `LedgerLockAttemptFailed`; on a different, unheld ledger
acquisition succeeds even while the first ledger is locked. -/
theorem C9_lock_mutual_exclusion_per_ledger
    (ls : LockState) (l1 l2 tok1 tok2 tok3 : Nat)
    (h1 : lockHeld ls l1 = false)
    (hne : l2 ≠ l1)
    (h2 : lockHeld ls l2 = false) :
    (acquire_lock ls l1 tok1).1 = some tok1 ∧
    (acquire_lock (acquire_lock ls l1 tok1).2 l1 tok2).1 = none ∧
    ledgerLock (acquire_lock ls l1 tok1).2 l1 tok2 = .error .ledgerLockAttemptFailed ∧
    (acquire_lock (acquire_lock ls l1 tok1).2 l2 tok3).1 = some tok3 := by
  have hstep : acquire_lock ls l1 tok1 = (some tok1, (l1, tok1) :: ls) := by
    unfold acquire_lock
    rw [h1]
    simp
  have hheld1 : lockHeld ((l1, tok1) :: ls) l1 = true := by
    unfold lockHeld
    rw [List.find?_cons]
    simp
  have hheld2 : lockHeld ((l1, tok1) :: ls) l2 = false := by
    unfold lockHeld at h2 ⊢
    rw [List.find?_cons]
    have hpred : decide ((l1, tok1).1 = l2) = false := by
      simp only [decide_eq_false_iff_not]
      exact fun hc => hne hc.symm
    rw [hpred]
    exact h2
  refine ⟨by rw [hstep], ?_, ?_, ?_⟩
  · rw [hstep]
    unfold acquire_lock
    rw [hheld1]
    simp
  · rw [hstep]
    unfold ledgerLock acquire_lock
    rw [hheld1]
    simp
  · rw [hstep]
    unfold acquire_lock
    rw [hheld2]
    simp

/-- C9, witness: the empty lock state with ledgers 0 and 1. -/
theorem C9_witness :
    (acquire_lock [] 0 11).1 = some 11 ∧
    (acquire_lock (acquire_lock [] 0 11).2 0 12).1 = none ∧
    ledgerLock (acquire_lock [] 0 11).2 0 12 = .error .ledgerLockAttemptFailed ∧
    (acquire_lock (acquire_lock [] 0 11).2 1 13).1 = some 13 :=
  C9_lock_mutual_exclusion_per_ledger [] 0 1 11 12 13 (by decide) (by decide) (by decide)
